import Mathlib

/-!
Shallow embedding of the business-management backend's consistency cascade:
the order routes (salary-ledger derivation, status completion, deletion),
the client routes (direct payment update, per-work payment update with full
client recalculation) and the EditingProject save hook.

Conventions of the embedding:
* Mongo ObjectIds are `Nat`; raw caller-supplied id strings are `RawId`
  carrying their JS truthiness (`present`) and the result of
  `mongoose.Types.ObjectId.isValid` (`valid`).
* Money amounts are `Int` (JS numbers used as integral currency amounts);
  JS truthiness of a number is `≠ 0`.
* Collections: `orders`, `salaries`, `projects` are lists; `users` and
  `clients` are total maps `Nat → _` (a `findByIdAndUpdate` that misses is
  a no-op in Mongo and never consulted by the claims).
* Dates are `Int` timestamps passed in by the caller (`now`).
-/

/-- A caller-supplied identifier string: `present` is its JS truthiness,
`valid` the result of `mongoose.Types.ObjectId.isValid`, `val` the decoded
ObjectId when valid. -/
structure RawId where
  present : Bool
  valid : Bool
  val : Nat
  deriving Repr, DecidableEq

/-- A worker/transporter assignment as stored on an Order: a User reference
plus a payment amount. -/
structure Assignment where
  assignee : Nat
  payment : Int
  deriving Repr, DecidableEq

/-- A raw assignment as it arrives in the request body, before ObjectId
validation. -/
structure RawAssignment where
  assignee : RawId
  payment : Int
  deriving Repr, DecidableEq

/-- The Order document (the fields the cascade reads). -/
structure Order where
  id : Nat
  client : Nat
  orderName : String
  workers : List Assignment
  transporters : List Assignment
  totalAmount : Int
  receivedPayment : Int
  remainingPayment : Int
  status : String
  orderDate : Int
  createdBy : Nat
  shopName : String
  deriving Repr, DecidableEq

/-- The Salary ledger document. -/
structure Salary where
  employee : Nat
  amount : Int
  salaryType : String
  relatedOrder : Nat
  workDate : Int
  isPaid : Bool
  paidDate : Option Int
  deriving Repr, DecidableEq

/-- The User document's running salary counters; `notifications` counts the
records pushed onto the user's notification array. -/
structure User where
  totalEarnings : Int
  paidSalary : Int
  remainingSalary : Int
  notifications : Nat
  deriving Repr, DecidableEq

/-- The Client document's payment counters. -/
structure Client where
  lifetimeOrders : Int
  totalPaymentsDue : Int
  receivedPayments : Int
  pendingPayments : Int
  paymentStatus : String
  deriving Repr, DecidableEq

/-- The EditingProject document (the fields its save hook and the payment
route read). -/
structure Project where
  id : Nat
  client : Nat
  totalAmount : Int
  receivedPayment : Int
  remainingPayment : Int
  commissionPercentage : Int
  commissionAmount : Int
  status : String
  deriving Repr, DecidableEq

/-- The document store: the five collections the cascade touches. -/
structure DB where
  orders : List Order
  projects : List Project
  salaries : List Salary
  users : Nat → User
  clients : Nat → Client

/-- Point update of the `users` map (`User.findByIdAndUpdate`). -/
def updUser (m : Nat → User) (uid : Nat) (f : User → User) : Nat → User :=
  fun i => if i = uid then f (m i) else m i

/-- Point update of the `clients` map (`Client.findByIdAndUpdate`). -/
def updClient (m : Nat → Client) (cid : Nat) (f : Client → Client) : Nat → Client :=
  fun i => if i = cid then f (m i) else m i

/-- An HTTP response: status code and `message` field. -/
structure Response where
  status : Nat
  message : String
  deriving Repr, DecidableEq

/-- `Math.round(n / 100)` for an integer `n`: JS rounds half toward +∞. -/
def jsRound100 (n : Int) : Int := (n + 50).fdiv 100

namespace Impl

/-- The Salary document built for one worker assignment in
`createSalaryEntriesFromOrder`. -/
def workerSalary (o : Order) (a : Assignment) : Salary :=
  { employee := a.assignee
    amount := a.payment
    salaryType := "order_work"
    relatedOrder := o.id
    workDate := o.orderDate
    isPaid := false
    paidDate := none }

/-- The Salary document built for one transporter assignment in
`createSalaryEntriesFromOrder`. -/
def transporterSalary (o : Order) (a : Assignment) : Salary :=
  { employee := a.assignee
    amount := a.payment
    salaryType := "transport_work"
    relatedOrder := o.id
    workDate := o.orderDate
    isPaid := false
    paidDate := none }

/-- One iteration of the `createSalaryEntriesFromOrder` loops:
`salaryEntry.save()` followed by the `$inc` of the employee's
`totalEarnings`/`remainingSalary` by the payment. -/
def applySalaryEntry (db : DB) (s : Salary) : DB :=
  { db with
    salaries := db.salaries ++ [s]
    users := updUser db.users s.employee fun u =>
      { u with
        totalEarnings := u.totalEarnings + s.amount
        remainingSalary := u.remainingSalary + s.amount } }

/-- Writing a list of salary entries in sequence. -/
def applySalaryEntries (db : DB) (es : List Salary) : DB :=
  es.foldl applySalaryEntry db

/-- The full list of ledger entries `createSalaryEntriesFromOrder` writes for
an order: workers first, then transporters, skipping assignments whose
`payment` is falsy (zero). -/
def orderSalaryEntries (o : Order) : List Salary :=
  ((o.workers.filter fun a => a.payment ≠ 0).map (workerSalary o)) ++
    ((o.transporters.filter fun a => a.payment ≠ 0).map (transporterSalary o))

/-- `createSalaryEntriesFromOrder(order)`: for each worker then transporter
assignment with a truthy assignee and truthy payment, save an unpaid Salary
entry and `$inc` the employee's counters. (Stored assignee references are
ObjectIds, which are always truthy in JS, so only the payment guard
remains.) -/
def createSalaryEntriesFromOrder (o : Order) (db : DB) : DB :=
  let db1 := o.workers.foldl
    (fun d a => if a.payment ≠ 0 then applySalaryEntry d (workerSalary o a) else d) db
  o.transporters.foldl
    (fun d a => if a.payment ≠ 0 then applySalaryEntry d (transporterSalary o a) else d) db1

/-- The query filter of `markOrderSalariesAsPaid`:
`relatedOrder = orderId` and `isPaid = false`. -/
def unpaidFor (oid : Nat) (s : Salary) : Bool :=
  s.relatedOrder = oid ∧ s.isPaid = false

/-- `markOrderSalariesAsPaid(orderId)`: find the Salary entries with
`relatedOrder = orderId` and `isPaid = false`; mark each paid with
`paidDate = now`, `$inc` the employee's `paidSalary` by the amount and
`remainingSalary` by its negation, and `$push` a notification. -/
def markOrderSalariesAsPaid (oid : Nat) (now : Int) (db : DB) : DB :=
  let hit : Salary → Bool := unpaidFor oid
  let users' := (db.salaries.filter hit).foldl
    (fun m s => updUser m s.employee fun u =>
      { u with
        paidSalary := u.paidSalary + s.amount
        remainingSalary := u.remainingSalary - s.amount
        notifications := u.notifications + 1 }) db.users
  { db with
    salaries := db.salaries.map fun s =>
      if hit s then { s with isPaid := true, paidDate := some now } else s
    users := users' }

/-- The request body of `POST /orders`. -/
structure OrderRequest where
  clientId : RawId
  orderName : String
  venuePlace : String
  workers : List RawAssignment
  transporters : List RawAssignment
  description : String
  totalAmount : Int
  receivedPayment : Int
  orderDate : Option Int
  shopName : String
  createdBy : RawId
  deriving Repr, DecidableEq

/-- The required-field check of `POST /orders`:
`!clientId || !orderName || !venuePlace || !totalAmount || !description ||
!shopName || !createdBy`. -/
def missingRequired (r : OrderRequest) : Bool :=
  !r.clientId.present || r.orderName = "" || r.venuePlace = "" ||
    r.totalAmount = 0 || r.description = "" || r.shopName = "" ||
    !r.createdBy.present

/-- The Order document `POST /orders` constructs, with `freshOrderId` the
store-assigned `_id` and `freshCreatedBy` the ObjectId generated when
`createdBy` is invalid, and `now` the default `orderDate`. -/
def buildOrder (r : OrderRequest) (freshOrderId freshCreatedBy : Nat) (now : Int) : Order :=
  { id := freshOrderId
    client := r.clientId.val
    orderName := r.orderName
    workers := r.workers.map fun a => { assignee := a.assignee.val, payment := a.payment }
    transporters := r.transporters.map fun a => { assignee := a.assignee.val, payment := a.payment }
    totalAmount := r.totalAmount
    receivedPayment := r.receivedPayment
    remainingPayment := r.totalAmount - r.receivedPayment
    status := "pending"
    orderDate := r.orderDate.getD now
    createdBy := if r.createdBy.valid then r.createdBy.val else freshCreatedBy
    shopName := r.shopName }

/-- The salary cascade of `POST /orders` inside its try/catch. `failAfter =
none` means `createSalaryEntriesFromOrder` ran to completion; `failAfter =
some k` means it threw after fully writing `k` entries (the exception is
caught and only logged). -/
def runSalaryCascade (o : Order) (failAfter : Option Nat) (db : DB) : DB :=
  match failAfter with
  | none => createSalaryEntriesFromOrder o db
  | some k => applySalaryEntries db ((orderSalaryEntries o).take k)

/-- The client-statistics `$inc` of `POST /orders`: `lifetimeOrders + 1`,
`totalPaymentsDue + totalAmount`, `pendingPayments + (totalAmount -
receivedPayment)`. `clientFailed` models this step throwing (caught and only
logged), in which case nothing is written. -/
def runClientIncCascade (r : OrderRequest) (clientFailed : Bool) (db : DB) : DB :=
  if clientFailed then db
  else
    { db with
      clients := updClient db.clients r.clientId.val fun c =>
        { c with
          lifetimeOrders := c.lifetimeOrders + 1
          totalPaymentsDue := c.totalPaymentsDue + r.totalAmount
          pendingPayments := c.pendingPayments + (r.totalAmount - r.receivedPayment) } }

/-- `POST /orders`. Validation (missing fields, invalid client id, invalid
worker/transporter ids) happens before any write; the `createdBy` id is
silently replaced by a fresh ObjectId when invalid; after `order.save()` the
salary cascade and the client `$inc` each run inside a try/catch whose
failure is only logged, and the response is 201 regardless. -/
def postOrder (r : OrderRequest) (freshOrderId freshCreatedBy : Nat) (now : Int)
    (salaryFailAfter : Option Nat) (clientFailed : Bool) (db : DB) : Response × DB :=
  if missingRequired r then
    ({ status := 400,
       message := "Missing required fields: clientId, orderName, venuePlace, totalAmount, description, shopName, createdBy" }, db)
  else if !r.clientId.valid then
    ({ status := 400, message := "Invalid client ID" }, db)
  else if r.workers.any (fun a => !a.assignee.valid) then
    ({ status := 400, message := "Invalid worker ID" }, db)
  else if r.transporters.any (fun a => !a.assignee.valid) then
    ({ status := 400, message := "Invalid transporter ID" }, db)
  else
    let o := buildOrder r freshOrderId freshCreatedBy now
    let db1 := { db with orders := db.orders ++ [o] }
    let db2 := runSalaryCascade o salaryFailAfter db1
    let db3 := runClientIncCascade r clientFailed db2
    ({ status := 201, message := "Order created successfully" }, db3)

/-- `PUT /orders/:id/status`: `findByIdAndUpdate` sets `status` (and
`completionDate` when completing); 404 when the order is missing; when the
new status is `completed`, `markOrderSalariesAsPaid` runs (in a try/catch). -/
def putOrderStatus (oid : Nat) (status : String) (now : Int) (db : DB) : Response × DB :=
  match db.orders.find? (fun o => o.id = oid) with
  | none => ({ status := 404, message := "Order not found" }, db)
  | some _ =>
    let db1 := { db with
      orders := db.orders.map fun o => if o.id = oid then { o with status := status } else o }
    let db2 := if status = "completed" then markOrderSalariesAsPaid oid now db1 else db1
    ({ status := 200, message := "Order status updated" }, db2)

/-- `DELETE /orders/:id`: 404 when missing; otherwise delete the related
Salary entries, subtract each paid assignment from its assignee's
`totalEarnings`/`remainingSalary`, `$inc` the client's counters down by the
order's recorded amounts, and delete the order document. -/
def deleteOrder (oid : Nat) (db : DB) : Response × DB :=
  match db.orders.find? (fun o => o.id = oid) with
  | none => ({ status := 404, message := "Order not found" }, db)
  | some o =>
    let db1 := { db with salaries := db.salaries.filter fun s => s.relatedOrder ≠ oid }
    let users1 := o.workers.foldl
      (fun m a => if a.payment ≠ 0 then
          updUser m a.assignee (fun u =>
            { u with
              totalEarnings := u.totalEarnings - a.payment
              remainingSalary := u.remainingSalary - a.payment })
        else m) db1.users
    let users2 := o.transporters.foldl
      (fun m a => if a.payment ≠ 0 then
          updUser m a.assignee (fun u =>
            { u with
              totalEarnings := u.totalEarnings - a.payment
              remainingSalary := u.remainingSalary - a.payment })
        else m) users1
    let clients' := updClient db1.clients o.client fun c =>
      { c with
        lifetimeOrders := c.lifetimeOrders - 1
        totalPaymentsDue := c.totalPaymentsDue - o.totalAmount
        pendingPayments := c.pendingPayments - (o.totalAmount - o.receivedPayment) }
    let db2 := { db1 with
      users := users2
      clients := clients'
      orders := db1.orders.filter fun x => x.id ≠ oid }
    ({ status := 200, message := "Order and related data deleted successfully" }, db2)

/-- The `paymentStatus` assignment of `PUT /clients/:id/payment`, as a
function of the stored `totalPaymentsDue` and the new received amount:
`newPendingPayments === 0` gives `paid`, else a positive received amount
gives `partial`, else `pending`. -/
def paymentStatusDirect (totalDue newReceived : Int) : String :=
  if max 0 (totalDue - newReceived) = 0 then "paid"
  else if newReceived > 0 then "partial"
  else "pending"

/-- The `paymentStatus` expression of the full-recalculation path of
`PUT /:clientId/work/:workId/payment`:
`totalDue === 0 ? pending : totalReceived >= totalDue ? paid :
totalReceived > 0 ? partial : pending`. -/
def paymentStatusRecalc (totalDue totalReceived : Int) : String :=
  if totalDue = 0 then "pending"
  else if totalReceived ≥ totalDue then "paid"
  else if totalReceived > 0 then "partial"
  else "pending"

/-- `PUT /clients/:id/payment`: validate `0 ≤ receivedAmount ≤
totalPaymentsDue`, then set `receivedPayments`, `pendingPayments = max(0,
totalDue - received)` and `paymentStatus`, and save. -/
def putClientPayment (cid : Nat) (receivedAmount : Int) (db : DB) : Response × DB :=
  let c := db.clients cid
  let totalDue := c.totalPaymentsDue
  if receivedAmount < 0 then
    ({ status := 400, message := "Received amount cannot be negative" }, db)
  else if receivedAmount > totalDue then
    ({ status := 400, message := "Received amount cannot exceed total due amount" }, db)
  else
    let newPending := max 0 (totalDue - receivedAmount)
    let db' := { db with
      clients := updClient db.clients cid fun cl =>
        { cl with
          receivedPayments := receivedAmount
          pendingPayments := newPending
          paymentStatus := paymentStatusDirect totalDue receivedAmount } }
    ({ status := 200, message := "Client payment updated successfully" }, db')

/-- The full-recalculation block of `PUT /:clientId/work/:workId/payment`:
sum `totalAmount`/`receivedPayment` over all the client's Orders and
EditingProjects and overwrite the client's counters. -/
def recalcClient (cid : Nat) (db : DB) : DB :=
  let orders := db.orders.filter fun o => o.client = cid
  let projects := db.projects.filter fun p => p.client = cid
  let totalDue :=
    (orders.foldl (fun s o => s + o.totalAmount) 0) +
      (projects.foldl (fun s p => s + p.totalAmount) 0)
  let totalReceived :=
    (orders.foldl (fun s o => s + o.receivedPayment) 0) +
      (projects.foldl (fun s p => s + p.receivedPayment) 0)
  { db with
    clients := updClient db.clients cid fun c =>
      { c with
        totalPaymentsDue := totalDue
        receivedPayments := totalReceived
        pendingPayments := max 0 (totalDue - totalReceived)
        paymentStatus := paymentStatusRecalc totalDue totalReceived } }

/-- `PUT /:clientId/work/:workId/payment` (ids already parsed; the hex-24
format check cannot fail on decoded ids): validate the work type and amount,
look the work up, reject an amount exceeding its total, write
`receivedPayment`/`remainingPayment` via `findByIdAndUpdate` (which bypasses
the EditingProject save hook), then run the client full recalculation. -/
def putWorkPayment (cid wid : Nat) (workType : String) (receivedAmount : Int)
    (db : DB) : Response × DB :=
  if workType ≠ "order" ∧ workType ≠ "project" then
    ({ status := 400, message := "Invalid work type" }, db)
  else if receivedAmount < 0 then
    ({ status := 400, message := "Invalid payment amount" }, db)
  else if workType = "order" then
    match db.orders.find? (fun o => o.id = wid) with
    | none => ({ status := 404, message := "Order not found" }, db)
    | some w =>
      if receivedAmount > w.totalAmount then
        ({ status := 400, message := "Payment amount cannot exceed total amount" }, db)
      else
        let db1 := { db with
          orders := db.orders.map fun o =>
            if o.id = wid then
              { o with
                receivedPayment := receivedAmount
                remainingPayment := w.totalAmount - receivedAmount }
            else o }
        ({ status := 200, message := "Order payment updated successfully" },
          recalcClient cid db1)
  else
    match db.projects.find? (fun p => p.id = wid) with
    | none => ({ status := 404, message := "Project not found" }, db)
    | some w =>
      if receivedAmount > w.totalAmount then
        ({ status := 400, message := "Payment amount cannot exceed total amount" }, db)
      else
        let db1 := { db with
          projects := db.projects.map fun p =>
            if p.id = wid then
              { p with
                receivedPayment := receivedAmount
                remainingPayment := w.totalAmount - receivedAmount }
            else p }
        ({ status := 200, message := "Project payment updated successfully" },
          recalcClient cid db1)

/-- The `editingProjectSchema.pre('save')` hook: when `totalAmount` and
`commissionPercentage` are both truthy, recompute `commissionAmount =
Math.round(totalAmount * commissionPercentage / 100)`; when `totalAmount` is
truthy (and `receivedPayment` is defined, which it always is given its
schema default 0), recompute `remainingPayment = totalAmount -
receivedPayment`. -/
def editingProjectPreSave (p : Project) : Project :=
  let p1 :=
    if p.totalAmount ≠ 0 ∧ p.commissionPercentage ≠ 0 then
      { p with commissionAmount := jsRound100 (p.totalAmount * p.commissionPercentage) }
    else p
  if p1.totalAmount ≠ 0 then
    { p1 with remainingPayment := p1.totalAmount - p1.receivedPayment }
  else p1

end Impl

namespace Impl

/-! ### Helper lemmas about the fold-based operations -/

/-- Sum of the amounts that the entries of a ledger-entry list credit to one
employee. -/
def amountTo (uid : Nat) : List Salary → Int
  | [] => 0
  | s :: es => (if s.employee = uid then s.amount else 0) + amountTo uid es

/-- Sum of the payments of the positive-payment assignments of one assignee
in an assignment list. -/
def positivePaymentsTo (uid : Nat) : List Assignment → Int
  | [] => 0
  | a :: l => (if a.assignee = uid ∧ 0 < a.payment then a.payment else 0) +
      positivePaymentsTo uid l

/-- Sum of the payments of the nonzero-payment (JS-truthy) assignments of
one assignee in an assignment list. -/
def nonzeroPaymentsTo (uid : Nat) : List Assignment → Int
  | [] => 0
  | a :: l => (if a.assignee = uid ∧ a.payment ≠ 0 then a.payment else 0) +
      nonzeroPaymentsTo uid l

theorem foldl_pres {α β : Type} (P : β → Prop) (F : β → α → β)
    (h : ∀ b a, P b → P (F b a)) : ∀ (l : List α) (b : β), P b → P (l.foldl F b) := by
  intro l
  induction l with
  | nil => intro b hb; exact hb
  | cons a t ih => intro b hb; exact ih (F b a) (h b a hb)

theorem applySalaryEntries_append (db : DB) (l1 l2 : List Salary) :
    applySalaryEntries db (l1 ++ l2) = applySalaryEntries (applySalaryEntries db l1) l2 := by
  simp [applySalaryEntries, List.foldl_append]

theorem guardedFold_eq_applySalaryEntries (o : Order) (g : Order → Assignment → Salary) :
    ∀ (l : List Assignment) (db : DB),
      l.foldl (fun d a => if a.payment ≠ 0 then applySalaryEntry d (g o a) else d) db =
        applySalaryEntries db ((l.filter fun a => a.payment ≠ 0).map (g o)) := by
  intro l
  induction l with
  | nil => intro db; rfl
  | cons a t ih =>
    intro db
    simp only [List.foldl_cons]
    by_cases h : a.payment = 0
    · rw [if_neg (fun hc => hc h), ih]
      have hf : List.filter (fun x => decide (x.payment ≠ 0)) (a :: t) =
          List.filter (fun x => decide (x.payment ≠ 0)) t := by simp [h]
      rw [hf]
    · rw [if_pos h, ih]
      have hf : List.filter (fun x => decide (x.payment ≠ 0)) (a :: t) =
          a :: List.filter (fun x => decide (x.payment ≠ 0)) t := by simp [h]
      rw [hf, List.map_cons]
      rfl

theorem createSalaryEntriesFromOrder_eq (o : Order) (db : DB) :
    createSalaryEntriesFromOrder o db = applySalaryEntries db (orderSalaryEntries o) := by
  unfold createSalaryEntriesFromOrder orderSalaryEntries
  rw [guardedFold_eq_applySalaryEntries o workerSalary,
    guardedFold_eq_applySalaryEntries o transporterSalary,
    applySalaryEntries_append]

theorem applySalaryEntries_salaries (es : List Salary) :
    ∀ db : DB, (applySalaryEntries db es).salaries = db.salaries ++ es := by
  induction es with
  | nil => intro db; simp [applySalaryEntries]
  | cons s t ih =>
    intro db
    simp only [applySalaryEntries, List.foldl_cons]
    rw [show (List.foldl applySalaryEntry (applySalaryEntry db s) t) =
      applySalaryEntries (applySalaryEntry db s) t from rfl, ih]
    simp [applySalaryEntry]

theorem applySalaryEntries_orders (es : List Salary) :
    ∀ db : DB, (applySalaryEntries db es).orders = db.orders := by
  induction es with
  | nil => intro db; rfl
  | cons s t ih => intro db; exact (ih (applySalaryEntry db s)).trans rfl

theorem applySalaryEntries_projects (es : List Salary) :
    ∀ db : DB, (applySalaryEntries db es).projects = db.projects := by
  induction es with
  | nil => intro db; rfl
  | cons s t ih => intro db; exact (ih (applySalaryEntry db s)).trans rfl

theorem applySalaryEntries_clients (es : List Salary) :
    ∀ db : DB, (applySalaryEntries db es).clients = db.clients := by
  induction es with
  | nil => intro db; rfl
  | cons s t ih => intro db; exact (ih (applySalaryEntry db s)).trans rfl

theorem applySalaryEntries_users (es : List Salary) :
    ∀ (db : DB) (uid : Nat),
      (applySalaryEntries db es).users uid =
        { db.users uid with
          totalEarnings := (db.users uid).totalEarnings + amountTo uid es
          remainingSalary := (db.users uid).remainingSalary + amountTo uid es } := by
  induction es with
  | nil => intro db uid; simp [applySalaryEntries, amountTo]
  | cons s t ih =>
    intro db uid
    rw [show applySalaryEntries db (s :: t) = applySalaryEntries (applySalaryEntry db s) t
      from rfl, ih]
    simp only [applySalaryEntry, updUser, amountTo]
    by_cases h : uid = s.employee
    · simp only [if_pos h, if_pos h.symm]
      generalize db.users uid = u
      obtain ⟨te, ps, rs, nt⟩ := u
      simp only [User.mk.injEq]
      refine ⟨by omega, trivial, by omega, trivial⟩
    · have h2 : ¬ s.employee = uid := fun hh => h hh.symm
      simp only [if_neg h, if_neg h2]
      generalize db.users uid = u
      obtain ⟨te, ps, rs, nt⟩ := u
      simp only [User.mk.injEq]
      refine ⟨by omega, trivial, by omega, trivial⟩

end Impl

namespace Impl

/-! ### Lemmas about `markOrderSalariesAsPaid` -/

theorem mark_orders (oid : Nat) (now : Int) (db : DB) :
    (markOrderSalariesAsPaid oid now db).orders = db.orders := rfl

theorem mark_mem_paid (oid : Nat) (now : Int) (db : DB) :
    ∀ s ∈ (markOrderSalariesAsPaid oid now db).salaries, unpaidFor oid s = false := by
  intro s hs
  simp only [markOrderSalariesAsPaid, List.mem_map] at hs
  obtain ⟨x, _, rfl⟩ := hs
  by_cases h : unpaidFor oid x = true
  · rw [if_pos h]
    simp [unpaidFor]
  · rw [if_neg (by simpa using h)]
    simpa using h

theorem mark_eq_of_no_unpaid (oid : Nat) (now : Int) (db : DB)
    (h : ∀ s ∈ db.salaries, unpaidFor oid s = false) :
    markOrderSalariesAsPaid oid now db = db := by
  have hf : db.salaries.filter (unpaidFor oid) = [] :=
    List.filter_eq_nil_iff.mpr (by intro s hs; simp [h s hs])
  have hm : (db.salaries.map fun s =>
      if unpaidFor oid s then { s with isPaid := true, paidDate := some now } else s)
      = db.salaries := by
    have := List.map_congr_left (l := db.salaries)
      (f := fun s => if unpaidFor oid s then { s with isPaid := true, paidDate := some now } else s)
      (g := id) (by intro s hs; simp [h s hs])
    simpa using this
  simp only [markOrderSalariesAsPaid, hf, hm, List.foldl_nil]

theorem mark_salaries_users_of_no_unpaid (oid : Nat) (now : Int) (db : DB)
    (h : ∀ s ∈ db.salaries, unpaidFor oid s = false) :
    (markOrderSalariesAsPaid oid now db).salaries = db.salaries ∧
      (markOrderSalariesAsPaid oid now db).users = db.users := by
  have he := mark_eq_of_no_unpaid oid now db h
  exact ⟨congrArg DB.salaries he, congrArg DB.users he⟩

end Impl

namespace Impl

theorem putOrderStatus_completed_eq (oid : Nat) (t : Int) (db : DB) (o : Order)
    (ho : db.orders.find? (fun x => x.id = oid) = some o) :
    putOrderStatus oid "completed" t db =
      ({ status := 200, message := "Order status updated" },
        markOrderSalariesAsPaid oid t
          { db with orders := db.orders.map fun x =>
              if x.id = oid then { x with status := "completed" } else x }) := by
  unfold putOrderStatus
  rw [ho]
  simp

end Impl

/-- C2: invoking the status→completed transition twice on the same order
marks each related Salary entry paid exactly once: the second invocation
finds no unpaid Salary entries referencing the order, so it changes no
Salary document and performs no paidSalary/remainingSalary increment on any
employee (the mandatory `isPaid: false` filter prevents the double
increment). -/
theorem completed_twice_marks_paid_once (db : DB) (oid : Nat) (t1 t2 : Int)
    (h : (db.orders.find? fun o => o.id = oid).isSome = true) :
    ((Impl.putOrderStatus oid "completed" t2
        (Impl.putOrderStatus oid "completed" t1 db).2).2.salaries
      = (Impl.putOrderStatus oid "completed" t1 db).2.salaries)
    ∧ ((Impl.putOrderStatus oid "completed" t2
        (Impl.putOrderStatus oid "completed" t1 db).2).2.users
      = (Impl.putOrderStatus oid "completed" t1 db).2.users) := by
  obtain ⟨o, ho⟩ := Option.isSome_iff_exists.mp h
  rw [Impl.putOrderStatus_completed_eq oid t1 db o ho]
  dsimp only
  have hpo : o.id = oid := by simpa using List.find?_some ho
  have hmem : o ∈ db.orders := List.mem_of_find?_eq_some ho
  have h2 : (((Impl.markOrderSalariesAsPaid oid t1
      { db with orders := db.orders.map fun x =>
          if x.id = oid then { x with status := "completed" } else x }).orders).find?
        (fun x => x.id = oid)).isSome := by
    rw [Impl.mark_orders]
    refine List.find?_isSome.mpr ⟨(fun x => if x.id = oid then { x with status := "completed" } else x) o,
      List.mem_map_of_mem _ hmem, ?_⟩
    simp [hpo]
  obtain ⟨o2, ho2⟩ := Option.isSome_iff_exists.mp h2
  rw [Impl.putOrderStatus_completed_eq oid t2 _ o2 ho2]
  dsimp only
  exact ⟨(Impl.mark_salaries_users_of_no_unpaid oid t2 _
      (fun s hs => Impl.mark_mem_paid oid t1 _ s hs)).1,
    (Impl.mark_salaries_users_of_no_unpaid oid t2 _
      (fun s hs => Impl.mark_mem_paid oid t1 _ s hs)).2⟩

namespace ExC2

def theOrder : Order :=
  { id := 3, client := 1, orderName := "O", workers := [{ assignee := 5, payment := 100 }],
    transporters := [], totalAmount := 500, receivedPayment := 0, remainingPayment := 500,
    status := "pending", orderDate := 0, createdBy := 9, shopName := "S" }

def theSalary : Salary :=
  { employee := 5, amount := 100, salaryType := "order_work", relatedOrder := 3,
    workDate := 0, isPaid := false, paidDate := none }

def theUser : User :=
  { totalEarnings := 100, paidSalary := 0, remainingSalary := 100, notifications := 0 }

def theClient : Client :=
  { lifetimeOrders := 1, totalPaymentsDue := 500, receivedPayments := 0,
    pendingPayments := 500, paymentStatus := "pending" }

def theDB : DB :=
  { orders := [theOrder], projects := [], salaries := [theSalary],
    users := fun _ => theUser, clients := fun _ => theClient }

end ExC2

theorem completed_twice_marks_paid_once_witness :
    ((ExC2.theDB.orders.find? fun o => o.id = 3).isSome = true)
    ∧ (((Impl.putOrderStatus 3 "completed" 20
          (Impl.putOrderStatus 3 "completed" 10 ExC2.theDB).2).2.salaries
        = (Impl.putOrderStatus 3 "completed" 10 ExC2.theDB).2.salaries)
      ∧ ((Impl.putOrderStatus 3 "completed" 20
          (Impl.putOrderStatus 3 "completed" 10 ExC2.theDB).2).2.users
        = (Impl.putOrderStatus 3 "completed" 10 ExC2.theDB).2.users)) :=
  ⟨by decide, completed_twice_marks_paid_once ExC2.theDB 3 10 20 (by decide)⟩

namespace Impl

/-! ### Lemmas about the `POST /orders` cascade -/

/-- The salary entries actually written when the cascade throws after `k`
entries (`some k`) or runs to completion (`none`). -/
def writtenEntries (o : Order) (failAfter : Option Nat) : List Salary :=
  match failAfter with
  | none => orderSalaryEntries o
  | some k => (orderSalaryEntries o).take k

theorem runSalaryCascade_eq (o : Order) (fa : Option Nat) (db : DB) :
    runSalaryCascade o fa db = applySalaryEntries db (writtenEntries o fa) := by
  cases fa with
  | none => exact createSalaryEntriesFromOrder_eq o db
  | some k => rfl

theorem runSalaryCascade_orders (o : Order) (fa : Option Nat) (db : DB) :
    (runSalaryCascade o fa db).orders = db.orders := by
  rw [runSalaryCascade_eq]; exact applySalaryEntries_orders _ db

theorem runSalaryCascade_clients (o : Order) (fa : Option Nat) (db : DB) :
    (runSalaryCascade o fa db).clients = db.clients := by
  rw [runSalaryCascade_eq]; exact applySalaryEntries_clients _ db

theorem runClientIncCascade_orders (r : OrderRequest) (cf : Bool) (db : DB) :
    (runClientIncCascade r cf db).orders = db.orders := by
  cases cf with
  | false => rfl
  | true => rfl

theorem runClientIncCascade_salaries (r : OrderRequest) (cf : Bool) (db : DB) :
    (runClientIncCascade r cf db).salaries = db.salaries := by
  cases cf with
  | false => rfl
  | true => rfl

theorem runClientIncCascade_users (r : OrderRequest) (cf : Bool) (db : DB) :
    (runClientIncCascade r cf db).users = db.users := by
  cases cf with
  | false => rfl
  | true => rfl

theorem runClientIncCascade_true (r : OrderRequest) (db : DB) :
    runClientIncCascade r true db = db := rfl

theorem postOrder_success (r : OrderRequest) (foid fcb : Nat) (now : Int)
    (sf : Option Nat) (cf : Bool) (db : DB)
    (h1 : missingRequired r = false) (h2 : r.clientId.valid = true)
    (h3 : r.workers.any (fun a => !a.assignee.valid) = false)
    (h4 : r.transporters.any (fun a => !a.assignee.valid) = false) :
    postOrder r foid fcb now sf cf db =
      ({ status := 201, message := "Order created successfully" },
        runClientIncCascade r cf (runSalaryCascade (buildOrder r foid fcb now) sf
          { db with orders := db.orders ++ [buildOrder r foid fcb now] })) := by
  simp only [postOrder, h1, h2, h3, h4]
  simp

end Impl

/-- C6: when a cascade step after `order.save()` throws — the salary-ledger
creation after `k` entries, or the client-statistics increment — the request
still succeeds: the response is 201 "Order created successfully", the
persisted order is not rolled back, the `k` already-written salary entries
and their user-counter increments are kept, and a failed client increment
leaves the client untouched. -/
theorem cascade_failure_keeps_order (r : Impl.OrderRequest) (foid fcb : Nat) (now : Int)
    (k : Nat) (cf : Bool) (db : DB)
    (h1 : Impl.missingRequired r = false) (h2 : r.clientId.valid = true)
    (h3 : r.workers.any (fun a => !a.assignee.valid) = false)
    (h4 : r.transporters.any (fun a => !a.assignee.valid) = false) :
    (Impl.postOrder r foid fcb now (some k) cf db).1
        = { status := 201, message := "Order created successfully" }
    ∧ (Impl.postOrder r foid fcb now (some k) cf db).2.orders
        = db.orders ++ [Impl.buildOrder r foid fcb now]
    ∧ (Impl.postOrder r foid fcb now (some k) cf db).2.salaries
        = db.salaries ++ (Impl.orderSalaryEntries (Impl.buildOrder r foid fcb now)).take k
    ∧ (∀ uid,
        ((Impl.postOrder r foid fcb now (some k) cf db).2.users uid).totalEarnings
          = (db.users uid).totalEarnings
            + Impl.amountTo uid ((Impl.orderSalaryEntries (Impl.buildOrder r foid fcb now)).take k)
        ∧ ((Impl.postOrder r foid fcb now (some k) cf db).2.users uid).remainingSalary
          = (db.users uid).remainingSalary
            + Impl.amountTo uid ((Impl.orderSalaryEntries (Impl.buildOrder r foid fcb now)).take k))
    ∧ (cf = true → (Impl.postOrder r foid fcb now (some k) cf db).2.clients = db.clients) := by
  rw [Impl.postOrder_success r foid fcb now (some k) cf db h1 h2 h3 h4]
  dsimp only
  refine ⟨rfl, ?_, ?_, ?_, ?_⟩
  · rw [Impl.runClientIncCascade_orders, Impl.runSalaryCascade_orders]
  · rw [Impl.runClientIncCascade_salaries, Impl.runSalaryCascade_eq]
    exact Impl.applySalaryEntries_salaries _ _
  · intro uid
    rw [Impl.runClientIncCascade_users, Impl.runSalaryCascade_eq]
    rw [Impl.applySalaryEntries_users]
    exact ⟨rfl, rfl⟩
  · intro hcf
    subst hcf
    rw [Impl.runClientIncCascade_true, Impl.runSalaryCascade_clients]

namespace ExC6

def theReq : Impl.OrderRequest :=
  { clientId := { present := true, valid := true, val := 1 }
    orderName := "O"
    venuePlace := "V"
    workers := [{ assignee := { present := true, valid := true, val := 5 }, payment := 100 },
      { assignee := { present := true, valid := true, val := 6 }, payment := 200 }]
    transporters := []
    description := "d"
    totalAmount := 500
    receivedPayment := 0
    orderDate := some 7
    shopName := "S"
    createdBy := { present := true, valid := true, val := 9 } }

def zeroUser : User :=
  { totalEarnings := 0, paidSalary := 0, remainingSalary := 0, notifications := 0 }

def zeroClient : Client :=
  { lifetimeOrders := 0, totalPaymentsDue := 0, receivedPayments := 0,
    pendingPayments := 0, paymentStatus := "pending" }

def emptyDB : DB :=
  { orders := [], projects := [], salaries := [],
    users := fun _ => zeroUser, clients := fun _ => zeroClient }

end ExC6

theorem cascade_failure_keeps_order_witness :
    (Impl.missingRequired ExC6.theReq = false)
    ∧ ((Impl.postOrder ExC6.theReq 30 31 0 (some 1) true ExC6.emptyDB).1
        = { status := 201, message := "Order created successfully" })
    ∧ ((Impl.postOrder ExC6.theReq 30 31 0 (some 1) true ExC6.emptyDB).2.orders
        = ExC6.emptyDB.orders ++ [Impl.buildOrder ExC6.theReq 30 31 0])
    ∧ ((Impl.postOrder ExC6.theReq 30 31 0 (some 1) true ExC6.emptyDB).2.salaries
        = ExC6.emptyDB.salaries
          ++ (Impl.orderSalaryEntries (Impl.buildOrder ExC6.theReq 30 31 0)).take 1)
    ∧ (true = true → (Impl.postOrder ExC6.theReq 30 31 0 (some 1) true ExC6.emptyDB).2.clients
        = ExC6.emptyDB.clients) := by
  have h := cascade_failure_keeps_order ExC6.theReq 30 31 0 1 true ExC6.emptyDB
    (by decide) (by decide) (by decide) (by decide)
  exact ⟨by decide, h.1, h.2.1, h.2.2.1, h.2.2.2.2⟩

/-- C10: an order-creation request whose required fields are present and
whose clientId and worker/transporter references are valid never sees a
validation error from an invalid (non-ObjectId) `createdBy`: the order is
still created, persisted with `createdBy` silently replaced by the freshly
generated ObjectId, and the response is 201. -/
theorem invalid_createdBy_fallback (r : Impl.OrderRequest) (foid fcb : Nat) (now : Int)
    (sf : Option Nat) (cf : Bool) (db : DB)
    (h1 : Impl.missingRequired r = false) (h2 : r.clientId.valid = true)
    (h3 : r.workers.any (fun a => !a.assignee.valid) = false)
    (h4 : r.transporters.any (fun a => !a.assignee.valid) = false)
    (h5 : r.createdBy.valid = false) :
    (Impl.postOrder r foid fcb now sf cf db).1
        = { status := 201, message := "Order created successfully" }
    ∧ (Impl.postOrder r foid fcb now sf cf db).2.orders
        = db.orders ++ [Impl.buildOrder r foid fcb now]
    ∧ (Impl.buildOrder r foid fcb now).createdBy = fcb := by
  rw [Impl.postOrder_success r foid fcb now sf cf db h1 h2 h3 h4]
  dsimp only
  refine ⟨rfl, ?_, ?_⟩
  · rw [Impl.runClientIncCascade_orders, Impl.runSalaryCascade_orders]
  · simp [Impl.buildOrder, h5]

namespace ExC10

def theReq : Impl.OrderRequest :=
  { clientId := { present := true, valid := true, val := 1 }
    orderName := "O"
    venuePlace := "V"
    workers := [{ assignee := { present := true, valid := true, val := 5 }, payment := 100 }]
    transporters := []
    description := "d"
    totalAmount := 400
    receivedPayment := 0
    orderDate := none
    shopName := "S"
    createdBy := { present := true, valid := false, val := 0 } }

def zeroUser : User :=
  { totalEarnings := 0, paidSalary := 0, remainingSalary := 0, notifications := 0 }

def zeroClient : Client :=
  { lifetimeOrders := 0, totalPaymentsDue := 0, receivedPayments := 0,
    pendingPayments := 0, paymentStatus := "pending" }

def emptyDB : DB :=
  { orders := [], projects := [], salaries := [],
    users := fun _ => zeroUser, clients := fun _ => zeroClient }

end ExC10

theorem invalid_createdBy_fallback_witness :
    (ExC10.theReq.createdBy.valid = false)
    ∧ ((Impl.postOrder ExC10.theReq 40 41 0 none false ExC10.emptyDB).1
        = { status := 201, message := "Order created successfully" })
    ∧ ((Impl.postOrder ExC10.theReq 40 41 0 none false ExC10.emptyDB).2.orders
        = ExC10.emptyDB.orders ++ [Impl.buildOrder ExC10.theReq 40 41 0])
    ∧ ((Impl.buildOrder ExC10.theReq 40 41 0).createdBy = 41) := by
  have h := invalid_createdBy_fallback ExC10.theReq 40 41 0 none false ExC10.emptyDB
    (by decide) (by decide) (by decide) (by decide) (by decide)
  exact ⟨by decide, h.1, h.2.1, h.2.2⟩

namespace Impl

theorem amountTo_append (uid : Nat) (l1 l2 : List Salary) :
    amountTo uid (l1 ++ l2) = amountTo uid l1 + amountTo uid l2 := by
  induction l1 with
  | nil => simp [amountTo]
  | cons s t ih => simp [amountTo, ih]; omega

theorem amountTo_filtered_map (uid : Nat) (g : Assignment → Salary)
    (hge : ∀ a, (g a).employee = a.assignee) (hga : ∀ a, (g a).amount = a.payment)
    (l : List Assignment) (hnn : ∀ a ∈ l, 0 ≤ a.payment) :
    amountTo uid ((l.filter fun a => a.payment ≠ 0).map g) = positivePaymentsTo uid l := by
  induction l with
  | nil => rfl
  | cons a t ih =>
    have hnn' : ∀ x ∈ t, 0 ≤ x.payment := fun x hx => hnn x (List.mem_cons_of_mem a hx)
    have ha : 0 ≤ a.payment := hnn a (List.mem_cons_self a t)
    by_cases h : a.payment = 0
    · have hf : List.filter (fun x => decide (x.payment ≠ 0)) (a :: t)
          = List.filter (fun x => decide (x.payment ≠ 0)) t := by simp [h]
      rw [hf, ih hnn']
      have hc : ¬(a.assignee = uid ∧ 0 < a.payment) := by
        rintro ⟨-, hp⟩; omega
      simp [positivePaymentsTo, hc]
    · have hf : List.filter (fun x => decide (x.payment ≠ 0)) (a :: t)
          = a :: List.filter (fun x => decide (x.payment ≠ 0)) t := by simp [h]
      rw [hf, List.map_cons]
      show (if (g a).employee = uid then (g a).amount else 0)
          + amountTo uid ((t.filter fun x => x.payment ≠ 0).map g)
        = positivePaymentsTo uid (a :: t)
      rw [hge, hga, ih hnn']
      have hp : 0 < a.payment := by omega
      by_cases he : a.assignee = uid
      · simp [positivePaymentsTo, he, hp]
      · simp [positivePaymentsTo, he]

theorem orderSalaryEntries_pos (o : Order)
    (hw : ∀ a ∈ o.workers, 0 ≤ a.payment) (ht : ∀ a ∈ o.transporters, 0 ≤ a.payment) :
    orderSalaryEntries o =
      ((o.workers.filter fun a => 0 < a.payment).map (workerSalary o)) ++
        ((o.transporters.filter fun a => 0 < a.payment).map (transporterSalary o)) := by
  unfold orderSalaryEntries
  have e1 : (o.workers.filter fun a => a.payment ≠ 0)
      = o.workers.filter fun a => 0 < a.payment := by
    refine List.filter_congr ?_
    intro a ha
    exact decide_eq_decide.mpr (by have := hw a ha; omega)
  have e2 : (o.transporters.filter fun a => a.payment ≠ 0)
      = o.transporters.filter fun a => 0 < a.payment := by
    refine List.filter_congr ?_
    intro a ha
    exact decide_eq_decide.mpr (by have := ht a ha; omega)
  rw [e1, e2]

end Impl

/-- C1: an order-creation request that persists its order creates exactly one
Salary entry per worker/transporter assignment with a positive payment —
workers becoming `order_work` entries and transporters `transport_work`
entries, with amount the assignment's payment, workDate the order's date
(defaulted to creation time), `isPaid = false` — and increments each
referenced employee's `totalEarnings` and `remainingSalary` by the total of
that employee's positive assignment payments, leaving `paidSalary`
untouched; zero-payment assignments yield no entry and no increment. -/
theorem order_creation_salary_ledger (r : Impl.OrderRequest) (foid fcb : Nat) (now : Int)
    (db : DB)
    (h1 : Impl.missingRequired r = false) (h2 : r.clientId.valid = true)
    (h3 : r.workers.any (fun a => !a.assignee.valid) = false)
    (h4 : r.transporters.any (fun a => !a.assignee.valid) = false)
    (hw : ∀ a ∈ r.workers, 0 ≤ a.payment) (ht : ∀ a ∈ r.transporters, 0 ≤ a.payment) :
    (Impl.postOrder r foid fcb now none false db).2.salaries
      = db.salaries
        ++ ((((Impl.buildOrder r foid fcb now).workers.filter fun a => 0 < a.payment).map
              (Impl.workerSalary (Impl.buildOrder r foid fcb now)))
          ++ (((Impl.buildOrder r foid fcb now).transporters.filter fun a => 0 < a.payment).map
              (Impl.transporterSalary (Impl.buildOrder r foid fcb now))))
    ∧ ∀ uid,
        ((Impl.postOrder r foid fcb now none false db).2.users uid).totalEarnings
          = (db.users uid).totalEarnings
            + (Impl.positivePaymentsTo uid (Impl.buildOrder r foid fcb now).workers
              + Impl.positivePaymentsTo uid (Impl.buildOrder r foid fcb now).transporters)
        ∧ ((Impl.postOrder r foid fcb now none false db).2.users uid).remainingSalary
          = (db.users uid).remainingSalary
            + (Impl.positivePaymentsTo uid (Impl.buildOrder r foid fcb now).workers
              + Impl.positivePaymentsTo uid (Impl.buildOrder r foid fcb now).transporters)
        ∧ ((Impl.postOrder r foid fcb now none false db).2.users uid).paidSalary
          = (db.users uid).paidSalary := by
  rw [Impl.postOrder_success r foid fcb now none false db h1 h2 h3 h4]
  dsimp only
  have hwo : ∀ a ∈ (Impl.buildOrder r foid fcb now).workers, 0 ≤ a.payment := by
    intro a ha
    simp only [Impl.buildOrder, List.mem_map] at ha
    obtain ⟨ra, hra, rfl⟩ := ha
    exact hw ra hra
  have hto : ∀ a ∈ (Impl.buildOrder r foid fcb now).transporters, 0 ≤ a.payment := by
    intro a ha
    simp only [Impl.buildOrder, List.mem_map] at ha
    obtain ⟨ra, hra, rfl⟩ := ha
    exact ht ra hra
  have e : ∀ uid, Impl.amountTo uid (Impl.orderSalaryEntries (Impl.buildOrder r foid fcb now))
      = Impl.positivePaymentsTo uid (Impl.buildOrder r foid fcb now).workers
          + Impl.positivePaymentsTo uid (Impl.buildOrder r foid fcb now).transporters := by
    intro uid
    unfold Impl.orderSalaryEntries
    rw [Impl.amountTo_append,
      Impl.amountTo_filtered_map uid _ (fun _ => rfl) (fun _ => rfl) _ hwo,
      Impl.amountTo_filtered_map uid _ (fun _ => rfl) (fun _ => rfl) _ hto]
  constructor
  · rw [Impl.runClientIncCascade_salaries, Impl.runSalaryCascade_eq,
      Impl.applySalaryEntries_salaries,
      show Impl.writtenEntries (Impl.buildOrder r foid fcb now) none
        = Impl.orderSalaryEntries (Impl.buildOrder r foid fcb now) from rfl,
      Impl.orderSalaryEntries_pos _ hwo hto]
  · intro uid
    rw [Impl.runClientIncCascade_users, Impl.runSalaryCascade_eq,
      Impl.applySalaryEntries_users]
    have e1 := e uid
    dsimp only at e1 ⊢
    refine ⟨?_, ?_, rfl⟩
    · rw [show Impl.writtenEntries (Impl.buildOrder r foid fcb now) none
        = Impl.orderSalaryEntries (Impl.buildOrder r foid fcb now) from rfl, e1]
    · rw [show Impl.writtenEntries (Impl.buildOrder r foid fcb now) none
        = Impl.orderSalaryEntries (Impl.buildOrder r foid fcb now) from rfl, e1]

namespace ExC1

def theReq : Impl.OrderRequest :=
  { clientId := { present := true, valid := true, val := 1 }
    orderName := "O"
    venuePlace := "V"
    workers := [{ assignee := { present := true, valid := true, val := 5 }, payment := 100 },
      { assignee := { present := true, valid := true, val := 6 }, payment := 200 },
      { assignee := { present := true, valid := true, val := 7 }, payment := 0 }]
    transporters := []
    description := "d"
    totalAmount := 500
    receivedPayment := 0
    orderDate := some 3
    shopName := "S"
    createdBy := { present := true, valid := true, val := 9 } }

def zeroUser : User :=
  { totalEarnings := 0, paidSalary := 0, remainingSalary := 0, notifications := 0 }

def zeroClient : Client :=
  { lifetimeOrders := 0, totalPaymentsDue := 0, receivedPayments := 0,
    pendingPayments := 0, paymentStatus := "pending" }

def theDB : DB :=
  { orders := [], projects := [], salaries := [],
    users := fun _ => zeroUser, clients := fun _ => zeroClient }

end ExC1

theorem order_creation_salary_ledger_witness :
    (Impl.missingRequired ExC1.theReq = false)
    ∧ (∀ a ∈ ExC1.theReq.workers, 0 ≤ a.payment)
    ∧ ((Impl.postOrder ExC1.theReq 20 21 0 none false ExC1.theDB).2.salaries
        = ExC1.theDB.salaries
          ++ ((((Impl.buildOrder ExC1.theReq 20 21 0).workers.filter fun a => 0 < a.payment).map
                (Impl.workerSalary (Impl.buildOrder ExC1.theReq 20 21 0)))
            ++ (((Impl.buildOrder ExC1.theReq 20 21 0).transporters.filter fun a => 0 < a.payment).map
                (Impl.transporterSalary (Impl.buildOrder ExC1.theReq 20 21 0)))))
    ∧ (((Impl.postOrder ExC1.theReq 20 21 0 none false ExC1.theDB).2.users 5).totalEarnings
        = (ExC1.theDB.users 5).totalEarnings
          + (Impl.positivePaymentsTo 5 (Impl.buildOrder ExC1.theReq 20 21 0).workers
            + Impl.positivePaymentsTo 5 (Impl.buildOrder ExC1.theReq 20 21 0).transporters))
    ∧ (((Impl.postOrder ExC1.theReq 20 21 0 none false ExC1.theDB).2.users 6).remainingSalary
        = (ExC1.theDB.users 6).remainingSalary
          + (Impl.positivePaymentsTo 6 (Impl.buildOrder ExC1.theReq 20 21 0).workers
            + Impl.positivePaymentsTo 6 (Impl.buildOrder ExC1.theReq 20 21 0).transporters))
    ∧ (((Impl.postOrder ExC1.theReq 20 21 0 none false ExC1.theDB).2.salaries.filter
          (Impl.unpaidFor 20)).length = 2)
    ∧ ((((Impl.postOrder ExC1.theReq 20 21 0 none false ExC1.theDB).2.salaries.filter
          (Impl.unpaidFor 20)).map Salary.amount).sum = 300)
    ∧ (((Impl.postOrder ExC1.theReq 20 21 0 none false ExC1.theDB).2.users 7)
        = ExC1.theDB.users 7) := by
  have h := order_creation_salary_ledger ExC1.theReq 20 21 0 ExC1.theDB
    (by decide) (by decide) (by decide) (by decide) (by decide) (by decide)
  exact ⟨by decide, by decide, h.1, (h.2 5).1, (h.2 6).2.1, by decide, by decide, by decide⟩

namespace Impl

theorem subFold_users (l : List Assignment) :
    ∀ (m : Nat → User) (uid : Nat),
      (l.foldl (fun m a => if a.payment ≠ 0 then
          updUser m a.assignee (fun u =>
            { u with
              totalEarnings := u.totalEarnings - a.payment
              remainingSalary := u.remainingSalary - a.payment })
        else m) m) uid
      = { m uid with
          totalEarnings := (m uid).totalEarnings - nonzeroPaymentsTo uid l
          remainingSalary := (m uid).remainingSalary - nonzeroPaymentsTo uid l } := by
  induction l with
  | nil =>
    intro m uid
    simp [nonzeroPaymentsTo]
  | cons a t ih =>
    intro m uid
    simp only [List.foldl_cons]
    by_cases hp : a.payment = 0
    · rw [if_neg (fun hc => hc hp), ih]
      have hc : ¬(a.assignee = uid ∧ a.payment ≠ 0) := by rintro ⟨-, hq⟩; exact hq hp
      simp only [nonzeroPaymentsTo, if_neg hc]
      generalize m uid = u
      obtain ⟨te, ps, rs, nt⟩ := u
      simp only [User.mk.injEq]
      refine ⟨by omega, trivial, by omega, trivial⟩
    · rw [if_pos hp, ih]
      simp only [updUser, nonzeroPaymentsTo]
      by_cases he : uid = a.assignee
      · have he' : a.assignee = uid := he.symm
        simp only [if_pos he, if_pos (And.intro he' hp)]
        generalize m uid = u
        obtain ⟨te, ps, rs, nt⟩ := u
        simp only [User.mk.injEq]
        refine ⟨by omega, trivial, by omega, trivial⟩
      · have hc : ¬(a.assignee = uid ∧ a.payment ≠ 0) := by
          rintro ⟨hq, -⟩; exact he hq.symm
        simp only [if_neg he, if_neg hc]
        generalize m uid = u
        obtain ⟨te, ps, rs, nt⟩ := u
        simp only [User.mk.injEq]
        refine ⟨by omega, trivial, by omega, trivial⟩

end Impl

/-- C3: deleting an existing order reverses its financial footprint: every
Salary entry referencing the order is deleted; each assignee's
`totalEarnings`/`remainingSalary` drop by the total of that assignee's
(nonzero) assignment payments; the client's `lifetimeOrders` drops by 1,
`totalPaymentsDue` by the order's `totalAmount` and `pendingPayments` by
`totalAmount - receivedPayment`; and the order document is deleted. -/
theorem delete_order_reverses_financials (db : DB) (oid : Nat) (o : Order)
    (ho : db.orders.find? (fun x => x.id = oid) = some o) :
    (Impl.deleteOrder oid db).1
        = { status := 200, message := "Order and related data deleted successfully" }
    ∧ (Impl.deleteOrder oid db).2.salaries = db.salaries.filter (fun s => s.relatedOrder ≠ oid)
    ∧ (Impl.deleteOrder oid db).2.orders = db.orders.filter (fun x => x.id ≠ oid)
    ∧ (∀ uid,
        ((Impl.deleteOrder oid db).2.users uid).totalEarnings
          = (db.users uid).totalEarnings
            - (Impl.nonzeroPaymentsTo uid o.workers + Impl.nonzeroPaymentsTo uid o.transporters)
        ∧ ((Impl.deleteOrder oid db).2.users uid).remainingSalary
          = (db.users uid).remainingSalary
            - (Impl.nonzeroPaymentsTo uid o.workers + Impl.nonzeroPaymentsTo uid o.transporters)
        ∧ ((Impl.deleteOrder oid db).2.users uid).paidSalary = (db.users uid).paidSalary)
    ∧ (Impl.deleteOrder oid db).2.clients
        = updClient db.clients o.client (fun c =>
            { c with
              lifetimeOrders := c.lifetimeOrders - 1
              totalPaymentsDue := c.totalPaymentsDue - o.totalAmount
              pendingPayments := c.pendingPayments - (o.totalAmount - o.receivedPayment) }) := by
  unfold Impl.deleteOrder
  rw [ho]
  dsimp only
  refine ⟨rfl, rfl, rfl, ?_, rfl⟩
  intro uid
  rw [Impl.subFold_users, Impl.subFold_users]
  refine ⟨?_, ?_, rfl⟩ <;> dsimp only <;> omega

namespace ExC3

def theOrder : Order :=
  { id := 3, client := 1, orderName := "O",
    workers := [{ assignee := 5, payment := 150 }], transporters := [],
    totalAmount := 500, receivedPayment := 200, remainingPayment := 300,
    status := "pending", orderDate := 0, createdBy := 9, shopName := "S" }

def theSalary : Salary :=
  { employee := 5, amount := 150, salaryType := "order_work", relatedOrder := 3,
    workDate := 0, isPaid := false, paidDate := none }

def theUser : User :=
  { totalEarnings := 150, paidSalary := 0, remainingSalary := 150, notifications := 0 }

def theClient : Client :=
  { lifetimeOrders := 1, totalPaymentsDue := 500, receivedPayments := 0,
    pendingPayments := 300, paymentStatus := "pending" }

def theDB : DB :=
  { orders := [theOrder], projects := [], salaries := [theSalary],
    users := fun _ => theUser, clients := fun _ => theClient }

end ExC3

theorem delete_order_reverses_financials_witness :
    (ExC3.theDB.orders.find? (fun x => x.id = 3) = some ExC3.theOrder)
    ∧ ((Impl.deleteOrder 3 ExC3.theDB).2.salaries
        = ExC3.theDB.salaries.filter (fun s => s.relatedOrder ≠ 3))
    ∧ ((Impl.deleteOrder 3 ExC3.theDB).2.orders
        = ExC3.theDB.orders.filter (fun x => x.id ≠ 3))
    ∧ (((Impl.deleteOrder 3 ExC3.theDB).2.users 5).totalEarnings
        = (ExC3.theDB.users 5).totalEarnings
          - (Impl.nonzeroPaymentsTo 5 ExC3.theOrder.workers
            + Impl.nonzeroPaymentsTo 5 ExC3.theOrder.transporters))
    ∧ (((Impl.deleteOrder 3 ExC3.theDB).2.users 5).remainingSalary
        = (ExC3.theDB.users 5).remainingSalary
          - (Impl.nonzeroPaymentsTo 5 ExC3.theOrder.workers
            + Impl.nonzeroPaymentsTo 5 ExC3.theOrder.transporters))
    ∧ ((Impl.deleteOrder 3 ExC3.theDB).2.salaries = [])
    ∧ (((Impl.deleteOrder 3 ExC3.theDB).2.users 5).totalEarnings = 0)
    ∧ (((Impl.deleteOrder 3 ExC3.theDB).2.clients 1).totalPaymentsDue = 0)
    ∧ (((Impl.deleteOrder 3 ExC3.theDB).2.clients 1).pendingPayments = 0)
    ∧ (((Impl.deleteOrder 3 ExC3.theDB).2.clients 1).lifetimeOrders = 0) := by
  have h := delete_order_reverses_financials ExC3.theDB 3 ExC3.theOrder (by decide)
  exact ⟨by decide, h.2.1, h.2.2.1, (h.2.2.2.1 5).1, (h.2.2.2.1 5).2.1,
    by decide, by decide, by decide, by decide, by decide⟩

namespace Impl

/-- The per-user ledger invariant of the spec. -/
def UserLedgerInv (u : User) : Prop :=
  u.remainingSalary = u.totalEarnings - u.paidSalary

/-- The invariant on a whole users map. -/
def usersInv (m : Nat → User) : Prop :=
  ∀ uid, UserLedgerInv (m uid)

theorem updUser_inv (m : Nat → User) (uid : Nat) (f : User → User)
    (hm : usersInv m) (hf : ∀ u, UserLedgerInv u → UserLedgerInv (f u)) :
    usersInv (updUser m uid f) := by
  intro i
  unfold updUser
  by_cases hi : i = uid
  · rw [if_pos hi]; exact hf _ (hm i)
  · rw [if_neg hi]; exact hm i

theorem applySalaryEntries_inv (db : DB) (es : List Salary) (h : usersInv db.users) :
    usersInv (applySalaryEntries db es).users := by
  intro uid
  have hu := h uid
  rw [applySalaryEntries_users]
  unfold UserLedgerInv at hu ⊢
  dsimp only
  omega

theorem mark_usersInv (oid : Nat) (now : Int) (db : DB) (h : usersInv db.users) :
    usersInv (markOrderSalariesAsPaid oid now db).users := by
  show usersInv (List.foldl _ db.users (db.salaries.filter (unpaidFor oid)))
  refine foldl_pres usersInv _ ?_ _ _ h
  intro m s hm
  refine updUser_inv m s.employee _ hm ?_
  intro u hu
  unfold UserLedgerInv at hu ⊢
  dsimp only
  omega

theorem subFold_usersInv (l : List Assignment) (m : Nat → User) (h : usersInv m) :
    usersInv (l.foldl (fun m a => if a.payment ≠ 0 then
        updUser m a.assignee (fun u =>
          { u with
            totalEarnings := u.totalEarnings - a.payment
            remainingSalary := u.remainingSalary - a.payment })
      else m) m) := by
  refine foldl_pres usersInv _ ?_ _ _ h
  intro m' a hm
  by_cases hp : a.payment = 0
  · rw [if_neg (fun hc => hc hp)]; exact hm
  · rw [if_pos hp]
    refine updUser_inv m' a.assignee _ hm ?_
    intro u hu
    unfold UserLedgerInv at hu ⊢
    dsimp only
    omega

end Impl

/-- C5: for every user, `remainingSalary = totalEarnings - paidSalary` holds
after every ledger operation: the salary-entry creation cascade of order
creation (with any validation outcome and any cascade fail point), marking
salaries paid on completion, and the subtraction on order deletion all move
the three counters by deltas preserving the equation. -/
theorem user_ledger_invariant_preserved (db : DB)
    (hinv : ∀ uid, (db.users uid).remainingSalary
      = (db.users uid).totalEarnings - (db.users uid).paidSalary) :
    (∀ (r : Impl.OrderRequest) (foid fcb : Nat) (now : Int) (sf : Option Nat) (cf : Bool)
        (uid : Nat),
      ((Impl.postOrder r foid fcb now sf cf db).2.users uid).remainingSalary
        = ((Impl.postOrder r foid fcb now sf cf db).2.users uid).totalEarnings
          - ((Impl.postOrder r foid fcb now sf cf db).2.users uid).paidSalary)
    ∧ (∀ (oid : Nat) (status : String) (now : Int) (uid : Nat),
      ((Impl.putOrderStatus oid status now db).2.users uid).remainingSalary
        = ((Impl.putOrderStatus oid status now db).2.users uid).totalEarnings
          - ((Impl.putOrderStatus oid status now db).2.users uid).paidSalary)
    ∧ (∀ (oid uid : Nat),
      ((Impl.deleteOrder oid db).2.users uid).remainingSalary
        = ((Impl.deleteOrder oid db).2.users uid).totalEarnings
          - ((Impl.deleteOrder oid db).2.users uid).paidSalary) := by
  have h : Impl.usersInv db.users := hinv
  refine ⟨?_, ?_, ?_⟩
  · intro r foid fcb now sf cf
    show Impl.usersInv (Impl.postOrder r foid fcb now sf cf db).2.users
    unfold Impl.postOrder
    split
    · exact h
    split
    · exact h
    split
    · exact h
    split
    · exact h
    · dsimp only
      rw [Impl.runClientIncCascade_users, Impl.runSalaryCascade_eq]
      exact Impl.applySalaryEntries_inv _ _ h
  · intro oid status now
    show Impl.usersInv (Impl.putOrderStatus oid status now db).2.users
    unfold Impl.putOrderStatus
    cases hfind : db.orders.find? (fun o => o.id = oid) with
    | none => exact h
    | some o =>
      dsimp only
      split
      · exact Impl.mark_usersInv oid now _ h
      · exact h
  · intro oid
    show Impl.usersInv (Impl.deleteOrder oid db).2.users
    unfold Impl.deleteOrder
    cases hfind : db.orders.find? (fun x => x.id = oid) with
    | none => exact h
    | some o =>
      dsimp only
      exact Impl.subFold_usersInv _ _ (Impl.subFold_usersInv _ _ h)

namespace ExC5

def theOrder : Order :=
  { id := 3, client := 1, orderName := "O",
    workers := [{ assignee := 5, payment := 150 }], transporters := [],
    totalAmount := 500, receivedPayment := 200, remainingPayment := 300,
    status := "pending", orderDate := 0, createdBy := 9, shopName := "S" }

def theSalary : Salary :=
  { employee := 5, amount := 150, salaryType := "order_work", relatedOrder := 3,
    workDate := 0, isPaid := false, paidDate := none }

def theUser : User :=
  { totalEarnings := 150, paidSalary := 40, remainingSalary := 110, notifications := 0 }

def theClient : Client :=
  { lifetimeOrders := 1, totalPaymentsDue := 500, receivedPayments := 0,
    pendingPayments := 300, paymentStatus := "pending" }

def theDB : DB :=
  { orders := [theOrder], projects := [], salaries := [theSalary],
    users := fun _ => theUser, clients := fun _ => theClient }

def theReq : Impl.OrderRequest :=
  { clientId := { present := true, valid := true, val := 1 }
    orderName := "O2"
    venuePlace := "V"
    workers := [{ assignee := { present := true, valid := true, val := 5 }, payment := 60 }]
    transporters := []
    description := "d"
    totalAmount := 200
    receivedPayment := 0
    orderDate := none
    shopName := "S"
    createdBy := { present := true, valid := true, val := 9 } }

end ExC5

theorem user_ledger_invariant_preserved_witness :
    ((ExC5.theDB.users 5).remainingSalary
      = (ExC5.theDB.users 5).totalEarnings - (ExC5.theDB.users 5).paidSalary)
    ∧ (((Impl.postOrder ExC5.theReq 8 9 0 none false ExC5.theDB).2.users 5).remainingSalary
      = ((Impl.postOrder ExC5.theReq 8 9 0 none false ExC5.theDB).2.users 5).totalEarnings
        - ((Impl.postOrder ExC5.theReq 8 9 0 none false ExC5.theDB).2.users 5).paidSalary)
    ∧ (((Impl.putOrderStatus 3 "completed" 11 ExC5.theDB).2.users 5).remainingSalary
      = ((Impl.putOrderStatus 3 "completed" 11 ExC5.theDB).2.users 5).totalEarnings
        - ((Impl.putOrderStatus 3 "completed" 11 ExC5.theDB).2.users 5).paidSalary)
    ∧ (((Impl.deleteOrder 3 ExC5.theDB).2.users 5).remainingSalary
      = ((Impl.deleteOrder 3 ExC5.theDB).2.users 5).totalEarnings
        - ((Impl.deleteOrder 3 ExC5.theDB).2.users 5).paidSalary) := by
  have h := user_ledger_invariant_preserved ExC5.theDB (by intro uid; rfl)
  exact ⟨by decide, h.1 ExC5.theReq 8 9 0 none false 5, h.2.1 3 "completed" 11 5, h.2.2 3 5⟩

namespace Impl

theorem updClient_same (m : Nat → Client) (cid : Nat) (f : Client → Client) :
    updClient m cid f cid = f (m cid) := by
  unfold updClient
  rw [if_pos rfl]

theorem deleteOrder_clients (db : DB) (oid : Nat) (o : Order)
    (ho : db.orders.find? (fun x => x.id = oid) = some o) :
    (deleteOrder oid db).2.clients
      = updClient db.clients o.client (fun c =>
          { c with
            lifetimeOrders := c.lifetimeOrders - 1
            totalPaymentsDue := c.totalPaymentsDue - o.totalAmount
            pendingPayments := c.pendingPayments - (o.totalAmount - o.receivedPayment) }) := by
  unfold deleteOrder
  rw [ho]

end Impl

namespace ExC4

def theReq : Impl.OrderRequest :=
  { clientId := { present := true, valid := true, val := 1 }
    orderName := "O"
    venuePlace := "V"
    workers := []
    transporters := []
    description := "d"
    totalAmount := 500
    receivedPayment := 200
    orderDate := none
    shopName := "S"
    createdBy := { present := true, valid := true, val := 9 } }

def zeroUser : User :=
  { totalEarnings := 0, paidSalary := 0, remainingSalary := 0, notifications := 0 }

def zeroClient : Client :=
  { lifetimeOrders := 0, totalPaymentsDue := 0, receivedPayments := 0,
    pendingPayments := 0, paymentStatus := "pending" }

def theDB : DB :=
  { orders := [], projects := [], salaries := [],
    users := fun _ => zeroUser, clients := fun _ => zeroClient }

end ExC4

/-- C4 counterexample: the claimed invariant
`pendingPayments = max(0, totalPaymentsDue - receivedPayments)` holds on the
client before order creation, but creating an order with `totalAmount = 500`
and `receivedPayment = 200` leaves the stored client with
`totalPaymentsDue = 500`, `receivedPayments = 0`, `pendingPayments = 300`:
the creation path increments `pendingPayments` by `totalAmount -
receivedPayment` without touching `receivedPayments`, so the invariant fails
after the mutation. -/
theorem client_pending_invariant_cex :
    ((ExC4.theDB.clients 1).pendingPayments
      = max 0 ((ExC4.theDB.clients 1).totalPaymentsDue
          - (ExC4.theDB.clients 1).receivedPayments))
    ∧ ¬ (((Impl.postOrder ExC4.theReq 10 11 0 none false ExC4.theDB).2.clients 1).pendingPayments
      = max 0 (((Impl.postOrder ExC4.theReq 10 11 0 none false ExC4.theDB).2.clients 1).totalPaymentsDue
          - ((Impl.postOrder ExC4.theReq 10 11 0 none false ExC4.theDB).2.clients 1).receivedPayments)) := by
  constructor
  · decide
  · decide

/-- C4 amended: `pendingPayments = max(0, totalPaymentsDue -
receivedPayments)` holds after the client-payment update and after the full
recalculation; the order-creation increment and the deletion decrement
adjust `pendingPayments` by `±(totalAmount - receivedPayment)` without
touching `receivedPayments`, so they preserve the invariant only when the
order's `receivedPayment` is 0 (given the invariant held beforehand with
enough `totalPaymentsDue` headroom). -/
theorem client_pending_invariant_amended :
    (∀ (db : DB) (cid : Nat) (amt : Int),
      0 ≤ amt → amt ≤ (db.clients cid).totalPaymentsDue →
      ((Impl.putClientPayment cid amt db).2.clients cid).pendingPayments
        = max 0 (((Impl.putClientPayment cid amt db).2.clients cid).totalPaymentsDue
            - ((Impl.putClientPayment cid amt db).2.clients cid).receivedPayments))
    ∧ (∀ (db : DB) (cid : Nat),
      ((Impl.recalcClient cid db).clients cid).pendingPayments
        = max 0 (((Impl.recalcClient cid db).clients cid).totalPaymentsDue
            - ((Impl.recalcClient cid db).clients cid).receivedPayments))
    ∧ (∀ (db : DB) (r : Impl.OrderRequest),
      r.receivedPayment = 0 → 0 ≤ r.totalAmount →
      (db.clients r.clientId.val).pendingPayments
        = max 0 ((db.clients r.clientId.val).totalPaymentsDue
            - (db.clients r.clientId.val).receivedPayments) →
      (db.clients r.clientId.val).receivedPayments
          ≤ (db.clients r.clientId.val).totalPaymentsDue →
      ((Impl.runClientIncCascade r false db).clients r.clientId.val).pendingPayments
        = max 0 (((Impl.runClientIncCascade r false db).clients r.clientId.val).totalPaymentsDue
            - ((Impl.runClientIncCascade r false db).clients r.clientId.val).receivedPayments))
    ∧ (∀ (db : DB) (oid : Nat) (o : Order),
      db.orders.find? (fun x => x.id = oid) = some o →
      o.receivedPayment = 0 → 0 ≤ o.totalAmount →
      (db.clients o.client).pendingPayments
        = max 0 ((db.clients o.client).totalPaymentsDue
            - (db.clients o.client).receivedPayments) →
      (db.clients o.client).receivedPayments + o.totalAmount
          ≤ (db.clients o.client).totalPaymentsDue →
      ((Impl.deleteOrder oid db).2.clients o.client).pendingPayments
        = max 0 (((Impl.deleteOrder oid db).2.clients o.client).totalPaymentsDue
            - ((Impl.deleteOrder oid db).2.clients o.client).receivedPayments)) := by
  refine ⟨?_, ?_, ?_, ?_⟩
  · intro db cid amt h0 h1
    unfold Impl.putClientPayment
    rw [if_neg (by omega), if_neg (by omega)]
    dsimp only
    rw [Impl.updClient_same]
  · intro db cid
    unfold Impl.recalcClient
    dsimp only
    rw [Impl.updClient_same]
  · intro db r h0 hT hinv hle
    rw [show (Impl.runClientIncCascade r false db).clients
        = updClient db.clients r.clientId.val (fun c =>
            { c with
              lifetimeOrders := c.lifetimeOrders + 1
              totalPaymentsDue := c.totalPaymentsDue + r.totalAmount
              pendingPayments := c.pendingPayments + (r.totalAmount - r.receivedPayment) })
      from rfl, Impl.updClient_same]
    dsimp only
    omega
  · intro db oid o ho h0 hT hinv hle
    rw [Impl.deleteOrder_clients db oid o ho, Impl.updClient_same]
    dsimp only
    omega

namespace ExC4

def theReqZero : Impl.OrderRequest :=
  { clientId := { present := true, valid := true, val := 1 }
    orderName := "O"
    venuePlace := "V"
    workers := []
    transporters := []
    description := "d"
    totalAmount := 500
    receivedPayment := 0
    orderDate := none
    shopName := "S"
    createdBy := { present := true, valid := true, val := 9 } }

def delOrder : Order :=
  { id := 3, client := 1, orderName := "O",
    workers := [], transporters := [],
    totalAmount := 500, receivedPayment := 0, remainingPayment := 500,
    status := "pending", orderDate := 0, createdBy := 9, shopName := "S" }

def delClient : Client :=
  { lifetimeOrders := 1, totalPaymentsDue := 500, receivedPayments := 0,
    pendingPayments := 500, paymentStatus := "pending" }

def delDB : DB :=
  { orders := [delOrder], projects := [], salaries := [],
    users := fun _ => zeroUser, clients := fun _ => delClient }

end ExC4

theorem client_pending_invariant_amended_witness :
    (((Impl.putClientPayment 1 0 ExC4.theDB).2.clients 1).pendingPayments
      = max 0 (((Impl.putClientPayment 1 0 ExC4.theDB).2.clients 1).totalPaymentsDue
          - ((Impl.putClientPayment 1 0 ExC4.theDB).2.clients 1).receivedPayments))
    ∧ (((Impl.recalcClient 1 ExC4.theDB).clients 1).pendingPayments
      = max 0 (((Impl.recalcClient 1 ExC4.theDB).clients 1).totalPaymentsDue
          - ((Impl.recalcClient 1 ExC4.theDB).clients 1).receivedPayments))
    ∧ (((Impl.runClientIncCascade ExC4.theReqZero false ExC4.theDB).clients 1).pendingPayments
      = max 0 (((Impl.runClientIncCascade ExC4.theReqZero false ExC4.theDB).clients 1).totalPaymentsDue
          - ((Impl.runClientIncCascade ExC4.theReqZero false ExC4.theDB).clients 1).receivedPayments))
    ∧ (((Impl.deleteOrder 3 ExC4.delDB).2.clients 1).pendingPayments
      = max 0 (((Impl.deleteOrder 3 ExC4.delDB).2.clients 1).totalPaymentsDue
          - ((Impl.deleteOrder 3 ExC4.delDB).2.clients 1).receivedPayments)) :=
  ⟨client_pending_invariant_amended.1 ExC4.theDB 1 0 (by decide) (by decide),
    client_pending_invariant_amended.2.1 ExC4.theDB 1,
    client_pending_invariant_amended.2.2.1 ExC4.theDB ExC4.theReqZero rfl (by decide)
      (by decide) (by decide),
    client_pending_invariant_amended.2.2.2 ExC4.delDB 3 ExC4.delOrder (by decide) rfl
      (by decide) (by decide) (by decide)⟩

namespace Impl

theorem foldl_add_map {α : Type} (f : α → Int) (l : List α) :
    ∀ s : Int, l.foldl (fun acc x => acc + f x) s = s + (l.map f).sum := by
  induction l with
  | nil => intro s; simp
  | cons a t ih =>
    intro s
    simp only [List.foldl_cons, List.map_cons, List.sum_cons, ih]
    omega

end Impl

namespace ExC7

def order1 : Order :=
  { id := 11, client := 1, orderName := "O1", workers := [], transporters := [],
    totalAmount := 1000, receivedPayment := 400, remainingPayment := 600,
    status := "pending", orderDate := 0, createdBy := 9, shopName := "S" }

def order2 : Order :=
  { id := 12, client := 1, orderName := "O2", workers := [], transporters := [],
    totalAmount := 500, receivedPayment := 300, remainingPayment := 200,
    status := "pending", orderDate := 0, createdBy := 9, shopName := "S" }

def project1 : Project :=
  { id := 13, client := 1, totalAmount := 300, receivedPayment := 0,
    remainingPayment := 300, commissionPercentage := 10, commissionAmount := 30,
    status := "pending" }

def theUser : User :=
  { totalEarnings := 0, paidSalary := 0, remainingSalary := 0, notifications := 0 }

def theClient : Client :=
  { lifetimeOrders := 2, totalPaymentsDue := 1500, receivedPayments := 700,
    pendingPayments := 800, paymentStatus := "partial" }

def theDB : DB :=
  { orders := [order1, order2], projects := [project1], salaries := [],
    users := fun _ => theUser, clients := fun _ => theClient }

end ExC7

/-- C7: the full-recalculation path overwrites the client's counters with the
sums of `totalAmount`/`receivedPayment` over all the client's Orders and
EditingProjects, with `pendingPayments = max(0, due - received)` and the
derived `paymentStatus`; invoked through the per-work payment-update
endpoint on a client with Orders 1000/400 and 500/→500 and an
EditingProject 300/0, it stores `totalPaymentsDue = 1800`,
`receivedPayments = 900`, `pendingPayments = 900`,
`paymentStatus = 'partial'`. -/
theorem full_recalculation_totals :
    (∀ (db : DB) (cid : Nat),
      (Impl.recalcClient cid db).clients cid =
        { db.clients cid with
          totalPaymentsDue :=
            ((db.orders.filter fun o => o.client = cid).map (fun o => o.totalAmount)).sum
              + ((db.projects.filter fun p => p.client = cid).map (fun p => p.totalAmount)).sum
          receivedPayments :=
            ((db.orders.filter fun o => o.client = cid).map (fun o => o.receivedPayment)).sum
              + ((db.projects.filter fun p => p.client = cid).map (fun p => p.receivedPayment)).sum
          pendingPayments :=
            max 0 ((((db.orders.filter fun o => o.client = cid).map (fun o => o.totalAmount)).sum
                + ((db.projects.filter fun p => p.client = cid).map (fun p => p.totalAmount)).sum)
              - (((db.orders.filter fun o => o.client = cid).map (fun o => o.receivedPayment)).sum
                + ((db.projects.filter fun p => p.client = cid).map (fun p => p.receivedPayment)).sum))
          paymentStatus :=
            Impl.paymentStatusRecalc
              (((db.orders.filter fun o => o.client = cid).map (fun o => o.totalAmount)).sum
                + ((db.projects.filter fun p => p.client = cid).map (fun p => p.totalAmount)).sum)
              (((db.orders.filter fun o => o.client = cid).map (fun o => o.receivedPayment)).sum
                + ((db.projects.filter fun p => p.client = cid).map (fun p => p.receivedPayment)).sum) })
    ∧ ((Impl.putWorkPayment 1 12 "order" 500 ExC7.theDB).1.status = 200
      ∧ (Impl.putWorkPayment 1 12 "order" 500 ExC7.theDB).2.clients 1
          = { lifetimeOrders := 2, totalPaymentsDue := 1800, receivedPayments := 900,
              pendingPayments := 900, paymentStatus := "partial" }) := by
  constructor
  · intro db cid
    unfold Impl.recalcClient
    dsimp only
    rw [Impl.updClient_same]
    simp only [Impl.foldl_add_map, zero_add]
  · exact ⟨by decide, by decide⟩

namespace ExC8

def badProject : Project :=
  { id := 21, client := 1, totalAmount := 1000, receivedPayment := 0,
    remainingPayment := 1000, commissionPercentage := 0, commissionAmount := 77,
    status := "pending" }

def newProject : Project :=
  { id := 22, client := 1, totalAmount := 1000, receivedPayment := 0,
    remainingPayment := 0, commissionPercentage := 15, commissionAmount := 0,
    status := "pending" }

def payProject : Project :=
  { id := 13, client := 1, totalAmount := 1000, receivedPayment := 0,
    remainingPayment := 1000, commissionPercentage := 15, commissionAmount := 150,
    status := "pending" }

def theUser : User :=
  { totalEarnings := 0, paidSalary := 0, remainingSalary := 0, notifications := 0 }

def theClient : Client :=
  { lifetimeOrders := 0, totalPaymentsDue := 1000, receivedPayments := 0,
    pendingPayments := 1000, paymentStatus := "pending" }

def payDB : DB :=
  { orders := [], projects := [payProject], salaries := [],
    users := fun _ => theUser, clients := fun _ => theClient }

def updatedProject : Project :=
  { id := 13, client := 1, totalAmount := 1000, receivedPayment := 1000,
    remainingPayment := 0, commissionPercentage := 15, commissionAmount := 150,
    status := "pending" }

end ExC8

/-- C8 counterexample: the save hook only recomputes `commissionAmount` when
`totalAmount` and `commissionPercentage` are both truthy; on a project with
`commissionPercentage = 0` and a stale `commissionAmount = 77` it persists
77, not `round(1000 * 0 / 100) = 0`, so the recomputation does not run on
every mutating write as claimed. -/
theorem project_recompute_cex :
    (Impl.editingProjectPreSave ExC8.badProject).commissionAmount
        ≠ jsRound100 (ExC8.badProject.totalAmount * ExC8.badProject.commissionPercentage)
    ∧ (Impl.editingProjectPreSave ExC8.badProject).commissionAmount = 77 := by
  exact ⟨by decide, by decide⟩

/-- C8 amended: when `totalAmount` and `commissionPercentage` are both
nonzero, the save hook recomputes `commissionAmount =
round(totalAmount * commissionPercentage / 100)` and `remainingPayment =
totalAmount - receivedPayment` before persistence; a project with
`totalAmount = 1000` and `commissionPercentage = 15` persists
`commissionAmount = 150`; and the payment-update path (which bypasses the
hook via `findByIdAndUpdate`) directly persists `receivedPayment = 1000`
and `remainingPayment = 0`, leaving `commissionAmount` untouched. -/
theorem project_recompute_amended :
    (∀ p : Project, p.totalAmount ≠ 0 → p.commissionPercentage ≠ 0 →
      (Impl.editingProjectPreSave p).commissionAmount
          = jsRound100 (p.totalAmount * p.commissionPercentage)
        ∧ (Impl.editingProjectPreSave p).remainingPayment
          = p.totalAmount - p.receivedPayment)
    ∧ ((Impl.editingProjectPreSave ExC8.newProject).commissionAmount = 150)
    ∧ ((Impl.putWorkPayment 1 13 "project" 1000 ExC8.payDB).2.projects.find?
          (fun p => p.id = 13)
        = some ExC8.updatedProject) := by
  refine ⟨?_, by decide, by decide⟩
  intro p h1 h2
  unfold Impl.editingProjectPreSave
  rw [if_pos (And.intro h1 h2)]
  dsimp only
  rw [if_pos h1]
  exact ⟨rfl, rfl⟩

theorem project_recompute_amended_witness :
    (ExC8.newProject.totalAmount ≠ 0)
    ∧ (ExC8.newProject.commissionPercentage ≠ 0)
    ∧ ((Impl.editingProjectPreSave ExC8.newProject).commissionAmount
        = jsRound100 (ExC8.newProject.totalAmount * ExC8.newProject.commissionPercentage))
    ∧ ((Impl.editingProjectPreSave ExC8.newProject).remainingPayment
        = ExC8.newProject.totalAmount - ExC8.newProject.receivedPayment) := by
  have h := project_recompute_amended.1 ExC8.newProject (by decide) (by decide)
  exact ⟨by decide, by decide, h.1, h.2⟩

/-- C9 counterexample: the two `paymentStatus` assignments are not the same
function of `(totalPaymentsDue, receivedPayments)`: at `(0, 0)` the direct
client-payment endpoint computes `pendingPayments = 0` and assigns `'paid'`,
while the full-recalculation path's `totalDue === 0` guard assigns
`'pending'`. -/
theorem payment_status_paths_cex :
    Impl.paymentStatusDirect 0 0 = "paid"
    ∧ Impl.paymentStatusRecalc 0 0 = "pending"
    ∧ ¬ (Impl.paymentStatusDirect 0 0 = Impl.paymentStatusRecalc 0 0) := by
  exact ⟨by decide, by decide, by decide⟩

/-- C9 amended: for every pair of totals with `totalPaymentsDue > 0`, the
direct client-payment endpoint and the full-recalculation path compute the
same `paymentStatus`; they diverge exactly on the `totalPaymentsDue = 0`
boundary (notably at `(0, 0)`), where the direct path yields `'paid'` and
the recalculation path `'pending'`. -/
theorem payment_status_paths_amended (due rec : Int) (h : 0 < due) :
    Impl.paymentStatusDirect due rec = Impl.paymentStatusRecalc due rec := by
  unfold Impl.paymentStatusDirect Impl.paymentStatusRecalc
  split_ifs <;> first | rfl | omega

theorem payment_status_paths_amended_witness :
    ((0 : Int) < 5)
    ∧ Impl.paymentStatusDirect 5 3 = Impl.paymentStatusRecalc 5 3 :=
  ⟨by decide, payment_status_paths_amended 5 3 (by decide)⟩
